import Mathlib

/-!
Verification of the `caddy-ws-heartbeat` module (package `wsheartbeat`).

The development shallowly embeds the core source file: configuration
provisioning (`Provision`), the HTTP entry point (`ServeHTTP`), the
one-directional relay loop (`proxyWebSocket`) and the heartbeat loop
(`handlePing`).  External collaborators (the gorilla websocket dialer and
upgrader, the next handler in the middleware chain, `time.ParseDuration`,
the network) are modelled as oracle parameters; the handler's own control
flow, data transformations and bookkeeping are translated statement by
statement from the Go source.  Side effects (dialing, upgrading, closing,
registry mutation under the mutex, goroutine spawns) are recorded in an
effect trace so that claims about "no side effects", ordering of closes
versus returns, and registry membership windows become statements about
the trace and the returned registry.
-/

namespace WSHeartbeat

/-! ## HTTP headers

`net/http.Header` is a map from (canonical) field names to lists of
values.  We model it as an association list keyed by the canonical name;
`Get` returns the first value of the key (or "" when absent), `Del`
removes the key, `Clone` copies (identity in a pure setting). -/

abbrev Header := List (String × List String)

def Header.get (h : Header) (k : String) : String :=
  match h.find? (fun kv => kv.1 == k) with
  | some (_, v :: _) => v
  | _ => ""

/-- All values stored for a key (used to state preservation per key). -/
def Header.getAll (h : Header) (k : String) : List String :=
  (h.filter (fun kv => kv.1 == k)).map (fun kv => kv.2) |>.flatten

def Header.del (h : Header) (k : String) : Header :=
  h.filter (fun kv => kv.1 != k)

def Header.clone (h : Header) : Header := h

/-! ## Go string helpers used by `ServeHTTP`

`strings.Split(raw, ",")` and `strings.TrimSpace` from the Go standard
library, specialised to the single-character separator "," used by the
source.  `goIsSpace` is Go's `unicode.IsSpace` on the Latin-1 range,
which covers every whitespace character relevant to header values. -/

def goIsSpace (c : Char) : Bool :=
  c == ' ' || c == '\t' || c == '\n' || c == Char.ofNat 11 ||
  c == Char.ofNat 12 || c == '\r' || c == Char.ofNat 0x85 || c == Char.ofNat 0xA0

def trimSpace (s : String) : String :=
  (((s.toList.dropWhile goIsSpace).reverse.dropWhile goIsSpace).reverse).asString

def splitCommaAux : List Char → List Char → List String
  | [], acc => [acc.reverse.asString]
  | c :: cs, acc =>
    if c = ',' then acc.reverse.asString :: splitCommaAux cs []
    else splitCommaAux cs (c :: acc)

/-- `strings.Split(s, ",")`: the substrings between commas, in order;
the empty string splits to `[""]` exactly as in Go. -/
def splitOnComma (s : String) : List String :=
  splitCommaAux s.toList []

/-! ## Data model -/

/-- A websocket connection as the handler observes it: an identity (the
pointer in Go, made abstract as a `Nat`) and the subprotocol the
handshake resolved (`Conn.Subprotocol()`, "" when none). -/
structure Conn where
  id : Nat
  subprotocol : String
  deriving DecidableEq, Repr

/-- The handler's configuration fields consumed by `ServeHTTP`
(`BackendHost`, `BackendPaths`). -/
structure Config where
  backendHost : String
  backendPaths : List String
  deriving DecidableEq, Repr

/-- The inbound request as the handler consumes it:
`websocket.IsWebSocketUpgrade(r)` (computed by the gorilla library from
the headers, taken as a field), `r.URL.Path`, `r.URL.String()` and
`r.Header`. -/
structure Request where
  isWebSocketUpgrade : Bool
  urlPath : String
  urlString : String
  header : Header
  deriving DecidableEq, Repr

/-- Errors returned by `ServeHTTP`: either an error produced by an
external collaborator (next handler, dialer, upgrader, relay goroutines)
or the `fmt.Errorf` subprotocol-mismatch error built by this handler. -/
inductive GoErr where
  | external (e : String)
  | mismatch (backendProto clientProto : String)
  deriving DecidableEq, Repr

/-- Side effects of one `ServeHTTP` invocation, in program order. -/
inductive Effect where
  | passThrough
  | dialBackend (url : String) (hdr : Header) (protocols : List String)
  | upgradeClient (advertised : List String)
  | closeClient (id : Nat)
  | closeBackend (id : Nat)
  | lockMu
  | unlockMu
  | register (id : Nat)
  | unregister (id : Nat)
  | spawnPing (id : Nat)
  | spawnRelay (src dst : Nat)
  deriving DecidableEq, Repr

/-- The external collaborators of one `ServeHTTP` invocation:
the backend dialer (`dialer.Dial`, returning the backend connection with
its selected subprotocol, or an error), the client upgrader
(`upgrader.Upgrade`, given the advertised subprotocol list), the first
error received on the relay error channel, and the next handler's
result. -/
structure Env where
  dial : String → Header → List String → Except String Conn
  upgrade : List String → Except String Conn
  relayErr : String
  nextResult : Option GoErr

/-! ## ServeHTTP -/

/-- The allow-list loop of `ServeHTTP`: `allowed` is set exactly when
some configured path equals `r.URL.Path`. -/
def pathAllowed (paths : List String) (p : String) : Bool :=
  paths.any (fun q => q == p)

/-- The `offeredByClient` computation of `ServeHTTP`: if the
`Sec-WebSocket-Protocol` header value is empty the list stays `nil`,
otherwise split on ",", trim each part, append the non-empty ones. -/
def parseClientProtocols (raw : String) : List String :=
  if raw = "" then []
  else (splitOnComma raw).foldl
    (fun acc p => let q := trimSpace p; if q = "" then acc else acc ++ [q]) []

/-- The header-stripping block of `ServeHTTP`: six `Del` calls on the
clone of the inbound headers. -/
def stripWSHeaders (h : Header) : Header :=
  (((((h.del "Sec-WebSocket-Version").del
      "Sec-WebSocket-Key").del
      "Sec-WebSocket-Extensions").del
      "Sec-WebSocket-Protocol").del
      "Connection").del
      "Upgrade"

/-- The `upgrader.Subprotocols` assignment of `ServeHTTP`: the
client-facing upgrade advertises the backend's choice when it is
non-empty, and nothing otherwise. -/
def advertisedProtocols (chosenByBackend : String) : List String :=
  if chosenByBackend ≠ "" then [chosenByBackend] else []

/-- `ServeHTTP` of `WSHeartbeat`, translated line by line.  The returned
triple is (returned error, effect trace in program order, connection
registry after return).  The registry is the `connections` map restricted
to its keys (a presence-only set). -/
def serveHTTP (cfg : Config) (env : Env) (r : Request) (reg : Finset Nat) :
    Option GoErr × List Effect × Finset Nat :=
  if r.isWebSocketUpgrade = false then
    (env.nextResult, [Effect.passThrough], reg)
  else if pathAllowed cfg.backendPaths r.urlPath = false then
    (env.nextResult, [Effect.passThrough], reg)
  else
    let offeredByClient := parseClientProtocols (r.header.get "Sec-WebSocket-Protocol")
    let backendURL := "ws://" ++ cfg.backendHost ++ r.urlString
    let reqHeader := stripWSHeaders r.header.clone
    match env.dial backendURL reqHeader offeredByClient with
    | .error e =>
      (some (GoErr.external e),
       [Effect.dialBackend backendURL reqHeader offeredByClient], reg)
    | .ok backendConn =>
      let chosenByBackend := backendConn.subprotocol
      let advertised := advertisedProtocols chosenByBackend
      match env.upgrade advertised with
      | .error e =>
        (some (GoErr.external e),
         [Effect.dialBackend backendURL reqHeader offeredByClient,
          Effect.upgradeClient advertised,
          Effect.closeBackend backendConn.id], reg)
      | .ok clientConn =>
        let chosenByClient := clientConn.subprotocol
        if chosenByBackend ≠ chosenByClient then
          (some (GoErr.mismatch chosenByBackend chosenByClient),
           [Effect.dialBackend backendURL reqHeader offeredByClient,
            Effect.upgradeClient advertised,
            Effect.closeClient clientConn.id,
            Effect.closeBackend backendConn.id], reg)
        else
          (some (GoErr.external env.relayErr),
           [Effect.dialBackend backendURL reqHeader offeredByClient,
            Effect.upgradeClient advertised,
            Effect.lockMu, Effect.register clientConn.id, Effect.unlockMu,
            Effect.spawnPing clientConn.id,
            Effect.spawnRelay clientConn.id backendConn.id,
            Effect.spawnRelay backendConn.id clientConn.id,
            Effect.closeClient clientConn.id,
            Effect.closeBackend backendConn.id,
            Effect.lockMu, Effect.unregister clientConn.id, Effect.unlockMu],
           (insert clientConn.id reg).erase clientConn.id)

/-! ## Provision -/

/-- The configuration fields populated before `Provision` runs
(`Interval`, `BackendHost`, `BackendPaths`). -/
structure ProvisionConfig where
  interval : String
  backendHost : String
  backendPaths : List String
  deriving DecidableEq, Repr

/-- The provisioned handler state: `Interval` (after defaulting), the
parsed `intervalDuration` in nanoseconds, the backend configuration and
the freshly initialised `connections` registry. -/
structure Provisioned where
  interval : String
  intervalDuration : Int
  backendHost : String
  backendPaths : List String
  connections : Finset Nat
  deriving DecidableEq

/-- The `Interval` field after the defaulting statement
`if m.Interval == "" { m.Interval = "15s" }`. -/
def effectiveInterval (cfg : ProvisionConfig) : String :=
  if cfg.interval = "" then "15s" else cfg.interval

/-- `Provision`, translated line by line.  `time.ParseDuration` is an
external collaborator, passed as an oracle `pd` returning the duration in
nanoseconds on success (`none` on parse error); the Go test
`err != nil || dur <= 0` becomes the `none` match plus the `dur ≤ 0`
test. -/
def provision (pd : String → Option Int) (cfg : ProvisionConfig) :
    Except String Provisioned :=
  match pd (effectiveInterval cfg) with
  | none => .error ("invalid interval: " ++ effectiveInterval cfg)
  | some dur =>
    if dur ≤ 0 then .error ("invalid interval: " ++ effectiveInterval cfg)
    else if cfg.backendHost = "" then
      .error "backend host (first value) must be specified"
    else if cfg.backendPaths = [] then
      .error "backend paths (second value and onwards) must have at least one entry"
    else
      .ok { interval := effectiveInterval cfg, intervalDuration := dur,
            backendHost := cfg.backendHost, backendPaths := cfg.backendPaths,
            connections := ∅ }

/-! ## proxyWebSocket -/

/-- One framed message: the `msgType` int and the payload bytes returned
by `ReadMessage` and passed to `WriteMessage`. -/
structure WSMessage where
  msgType : Int
  payload : List Nat
  deriving DecidableEq, Repr

/-- Outcome of one `src.ReadMessage()` call: a message, or an error. -/
inductive ReadResult where
  | message (m : WSMessage)
  | failure (e : String)
  deriving DecidableEq, Repr

/-- Why one relay direction stopped and what it sent on `errCh`. -/
inductive RelayEnd where
  | readFailed (e : String)
  | writeFailed (e : String)
  deriving DecidableEq, Repr

/-- `proxyWebSocket`, one direction.  The source connection is a finite
prefix `reads` of its read-outcome stream; `wr i` is the outcome of the
i-th `dst.WriteMessage` call (`none` = success).  Returns the messages
successfully written to the destination, in order, and the error the
loop reported on `errCh` (`none` when the observed prefix ended with the
loop still running). -/
def proxyWebSocket (wr : Nat → Option String) :
    Nat → List ReadResult → List WSMessage × Option RelayEnd
  | _, [] => ([], none)
  | _, ReadResult.failure e :: _ => ([], some (RelayEnd.readFailed e))
  | i, ReadResult.message msg :: rest =>
    match wr i with
    | some e => ([], some (RelayEnd.writeFailed e))
    | none =>
      let r := proxyWebSocket wr (i + 1) rest
      (msg :: r.1, r.2)

/-! ## handlePing -/

/-- Side effects of the heartbeat loop.  `sendPing d` is one
`WriteControl(PingMessage, nil, time.Now().Add(d seconds))` attempt;
`closeConn` would be a close of the connection by the scheduler itself
(the source never performs one, and the trace never contains it). -/
inductive PingEffect where
  | sendPing (deadlineSeconds : Nat)
  | closeConn
  deriving DecidableEq, Repr

/-- The pong handler installed by `handlePing`: logs and returns `nil`.
Modelled as the error it returns for a given `appData`. -/
def pongHandler (_appData : String) : Option String := none

/-- The ticker loop of `handlePing`, observed for `fuel` ticks starting
at tick index `i`; `send j` is the outcome of the ping write attempted
on tick `j` (`none` = success).  Returns the effect trace and whether
the loop terminated within the observed ticks (it terminates only by
returning after a failed send). -/
def handlePingRun (send : Nat → Option String) :
    Nat → Nat → List PingEffect × Bool
  | 0, _ => ([], false)
  | fuel + 1, i =>
    match send i with
    | some _ => ([PingEffect.sendPing 5], true)
    | none =>
      let r := handlePingRun send fuel (i + 1)
      (PingEffect.sendPing 5 :: r.1, r.2)

/-! ## Concrete instances used by the witnesses -/

def cfgEx : Config := ⟨"backend.example.com", ["/ws"]⟩

def hdrEx : Header :=
  [("Sec-WebSocket-Protocol", ["chat.v1, chat.v2"]), ("X-Token", ["abc"]),
   ("Connection", ["Upgrade"]), ("Upgrade", ["websocket"])]

def reqEx : Request := ⟨true, "/ws", "/ws", hdrEx⟩

def reqPlain : Request := ⟨false, "/ws", "/ws", hdrEx⟩

def envPass : Env :=
  { dial := fun _ _ _ => Except.error "dial not reached"
    upgrade := fun _ => Except.error "upgrade not reached"
    relayErr := "EOF"
    nextResult := none }

def envDialErr : Env :=
  { dial := fun _ _ _ => Except.error "connection refused"
    upgrade := fun _ => Except.error "upgrade not reached"
    relayErr := "EOF"
    nextResult := none }

def envOk : Env :=
  { dial := fun _ _ _ => Except.ok ⟨2, "chat.v2"⟩
    upgrade := fun adv => Except.ok ⟨1, adv.headD ""⟩
    relayErr := "EOF"
    nextResult := none }

def envMismatch : Env :=
  { dial := fun _ _ _ => Except.ok ⟨2, "chat.v2"⟩
    upgrade := fun _ => Except.ok ⟨1, ""⟩
    relayErr := "EOF"
    nextResult := none }

/-! ## Theorems -/

/-- Claim C3: for every request that is not a websocket upgrade request,
or whose URL path is not in the configured allow-list, `ServeHTTP`
delegates to the next handler and returns exactly its result; the only
effect is the pass-through call (no dial, no upgrade) and the connection
registry is unchanged. -/
theorem serveHTTP_passthrough (cfg : Config) (env : Env) (r : Request)
    (reg : Finset Nat)
    (h : r.isWebSocketUpgrade = false ∨ pathAllowed cfg.backendPaths r.urlPath = false) :
    serveHTTP cfg env r reg = (env.nextResult, [Effect.passThrough], reg) := by
  rcases h with h | h
  · simp [serveHTTP, h]
  · cases hu : r.isWebSocketUpgrade <;> simp [serveHTTP, h, hu]

/-- Witness for C3 at a concrete non-upgrade request. -/
theorem serveHTTP_passthrough_witness :
    serveHTTP cfgEx envPass reqPlain ∅ = (none, [Effect.passThrough], ∅) :=
  (serveHTTP_passthrough cfgEx envPass reqPlain ∅ (Or.inl rfl)).trans (by decide)

/-- Claim C4: for an eligible upgrade request whose backend dial fails,
`ServeHTTP` returns the dial error; the trace shows the dial attempt and
nothing else (in particular no client-facing upgrade and no registry
mutation), and the registry after return equals the registry before. -/
theorem serveHTTP_dial_failure (cfg : Config) (env : Env) (r : Request)
    (reg : Finset Nat) (e : String)
    (hup : r.isWebSocketUpgrade = true)
    (hpath : pathAllowed cfg.backendPaths r.urlPath = true)
    (hdial : env.dial ("ws://" ++ cfg.backendHost ++ r.urlString)
        (stripWSHeaders r.header.clone)
        (parseClientProtocols (r.header.get "Sec-WebSocket-Protocol"))
        = Except.error e) :
    serveHTTP cfg env r reg
      = (some (GoErr.external e),
         [Effect.dialBackend ("ws://" ++ cfg.backendHost ++ r.urlString)
            (stripWSHeaders r.header.clone)
            (parseClientProtocols (r.header.get "Sec-WebSocket-Protocol"))],
         reg) := by
  simp [serveHTTP, hup, hpath, hdial]

/-- Witness for C4: a concrete eligible request whose dial fails; the
caller receives the dial error and the empty registry stays empty. -/
theorem serveHTTP_dial_failure_witness :
    serveHTTP cfgEx envDialErr reqEx ∅
      = (some (GoErr.external "connection refused"),
         [Effect.dialBackend "ws://backend.example.com/ws"
            [("X-Token", ["abc"])] ["chat.v1", "chat.v2"]],
         ∅) :=
  (serveHTTP_dial_failure cfgEx envDialErr reqEx ∅ "connection refused"
    rfl (by decide) rfl).trans (by decide)

/-- Claim C10: allow-list membership is exact string equality — the
`ServeHTTP` loop sets `allowed` iff some configured path equals the
request path; in particular "/ws" does not match "/ws/", and an upgrade
request for "/ws/" under allow-list ["/ws"] is passed through to the
next handler with no other effects. -/
theorem allowlist_exact_match :
    (∀ (paths : List String) (p : String), pathAllowed paths p = true ↔ p ∈ paths)
  ∧ pathAllowed ["/ws"] "/ws/" = false
  ∧ (∀ (host u : String) (hdr : Header) (env : Env) (reg : Finset Nat),
      serveHTTP ⟨host, ["/ws"]⟩ env ⟨true, "/ws/", u, hdr⟩ reg
        = (env.nextResult, [Effect.passThrough], reg)) := by
  refine ⟨?_, by decide, ?_⟩
  · intro paths p
    simp only [pathAllowed, List.any_eq_true, beq_iff_eq]
    constructor
    · rintro ⟨q, hq, rfl⟩
      exact hq
    · intro hp
      exact ⟨p, hp, rfl⟩
  · intro host u hdr env reg
    simp [serveHTTP, pathAllowed]

/-- Witness for C10: exact equality accepts an exact match. -/
theorem allowlist_exact_match_witness : pathAllowed ["/ws"] "/ws" = true :=
  (allowlist_exact_match.1 ["/ws"] "/ws").2 (by decide)

/-! ## Header stripping (C7) -/

/-- The six header names deleted before dialing the backend. -/
def wsStrippedNames : List String :=
  ["Sec-WebSocket-Version", "Sec-WebSocket-Key", "Sec-WebSocket-Extensions",
   "Sec-WebSocket-Protocol", "Connection", "Upgrade"]

theorem getAll_cons (kv : String × List String) (t : Header) (k : String) :
    Header.getAll (kv :: t) k
      = (if kv.1 == k then kv.2 else []) ++ Header.getAll t k := by
  cases hb : kv.1 == k <;> simp [Header.getAll, List.filter_cons, hb]

theorem getAll_filter_key (h : Header) (p : String → Bool) (k : String) :
    Header.getAll (h.filter (fun kv => p kv.1)) k
      = if p k then Header.getAll h k else [] := by
  induction h with
  | nil => simp [Header.getAll]
  | cons kv t ih =>
    by_cases hbk : (kv.1 == k) = true
    · have hk : kv.1 = k := by simpa [beq_iff_eq] using hbk
      cases hp : p kv.1
      · have hpk : p k = false := hk ▸ hp
        simp [List.filter_cons, hp, hpk, ih, getAll_cons]
      · have hpk : p k = true := hk ▸ hp
        simp [List.filter_cons, hp, hpk, ih, getAll_cons, hbk]
    · have hbkf : (kv.1 == k) = false := by simpa using hbk
      cases hp : p kv.1 <;> cases hpk : p k <;>
        simp [List.filter_cons, hp, hpk, ih, getAll_cons, hbkf]

/-! ### Branch equations for `serveHTTP`

One equation per control-flow leaf of `ServeHTTP`, shared by the
claim theorems below. -/

theorem serveHTTP_dial_failure_eq (cfg : Config) (env : Env) (r : Request)
    (reg : Finset Nat) (e : String)
    (hup : r.isWebSocketUpgrade = true)
    (hpath : pathAllowed cfg.backendPaths r.urlPath = true)
    (hd : env.dial ("ws://" ++ cfg.backendHost ++ r.urlString)
        (stripWSHeaders r.header.clone)
        (parseClientProtocols (r.header.get "Sec-WebSocket-Protocol"))
        = Except.error e) :
    serveHTTP cfg env r reg
      = (some (GoErr.external e),
         [Effect.dialBackend ("ws://" ++ cfg.backendHost ++ r.urlString)
            (stripWSHeaders r.header.clone)
            (parseClientProtocols (r.header.get "Sec-WebSocket-Protocol"))],
         reg) := by
  simp [serveHTTP, hup, hpath, hd]

theorem serveHTTP_upgrade_failure_eq (cfg : Config) (env : Env) (r : Request)
    (reg : Finset Nat) (bc : Conn) (e : String)
    (hup : r.isWebSocketUpgrade = true)
    (hpath : pathAllowed cfg.backendPaths r.urlPath = true)
    (hd : env.dial ("ws://" ++ cfg.backendHost ++ r.urlString)
        (stripWSHeaders r.header.clone)
        (parseClientProtocols (r.header.get "Sec-WebSocket-Protocol"))
        = Except.ok bc)
    (hg : env.upgrade (advertisedProtocols bc.subprotocol) = Except.error e) :
    serveHTTP cfg env r reg
      = (some (GoErr.external e),
         [Effect.dialBackend ("ws://" ++ cfg.backendHost ++ r.urlString)
            (stripWSHeaders r.header.clone)
            (parseClientProtocols (r.header.get "Sec-WebSocket-Protocol")),
          Effect.upgradeClient (advertisedProtocols bc.subprotocol),
          Effect.closeBackend bc.id],
         reg) := by
  simp [serveHTTP, hup, hpath, hd, hg]

theorem serveHTTP_mismatch_eq (cfg : Config) (env : Env) (r : Request)
    (reg : Finset Nat) (bc cc : Conn)
    (hup : r.isWebSocketUpgrade = true)
    (hpath : pathAllowed cfg.backendPaths r.urlPath = true)
    (hd : env.dial ("ws://" ++ cfg.backendHost ++ r.urlString)
        (stripWSHeaders r.header.clone)
        (parseClientProtocols (r.header.get "Sec-WebSocket-Protocol"))
        = Except.ok bc)
    (hg : env.upgrade (advertisedProtocols bc.subprotocol) = Except.ok cc)
    (hm : ¬ bc.subprotocol = cc.subprotocol) :
    serveHTTP cfg env r reg
      = (some (GoErr.mismatch bc.subprotocol cc.subprotocol),
         [Effect.dialBackend ("ws://" ++ cfg.backendHost ++ r.urlString)
            (stripWSHeaders r.header.clone)
            (parseClientProtocols (r.header.get "Sec-WebSocket-Protocol")),
          Effect.upgradeClient (advertisedProtocols bc.subprotocol),
          Effect.closeClient cc.id, Effect.closeBackend bc.id],
         reg) := by
  simp [serveHTTP, hup, hpath, hd, hg, hm]

theorem serveHTTP_success_eq (cfg : Config) (env : Env) (r : Request)
    (reg : Finset Nat) (bc cc : Conn)
    (hup : r.isWebSocketUpgrade = true)
    (hpath : pathAllowed cfg.backendPaths r.urlPath = true)
    (hd : env.dial ("ws://" ++ cfg.backendHost ++ r.urlString)
        (stripWSHeaders r.header.clone)
        (parseClientProtocols (r.header.get "Sec-WebSocket-Protocol"))
        = Except.ok bc)
    (hg : env.upgrade (advertisedProtocols bc.subprotocol) = Except.ok cc)
    (hm : bc.subprotocol = cc.subprotocol) :
    serveHTTP cfg env r reg
      = (some (GoErr.external env.relayErr),
         [Effect.dialBackend ("ws://" ++ cfg.backendHost ++ r.urlString)
            (stripWSHeaders r.header.clone)
            (parseClientProtocols (r.header.get "Sec-WebSocket-Protocol")),
          Effect.upgradeClient (advertisedProtocols bc.subprotocol),
          Effect.lockMu, Effect.register cc.id, Effect.unlockMu,
          Effect.spawnPing cc.id, Effect.spawnRelay cc.id bc.id,
          Effect.spawnRelay bc.id cc.id, Effect.closeClient cc.id,
          Effect.closeBackend bc.id, Effect.lockMu, Effect.unregister cc.id,
          Effect.unlockMu],
         (insert cc.id reg).erase cc.id) := by
  have hne : ¬ (bc.subprotocol ≠ cc.subprotocol) := fun h => h hm
  simp [serveHTTP, hup, hpath, hd, hg, hne]

/-- On every eligible request the first effect of `ServeHTTP` is the
backend dial, carrying the backend URL, the stripped header clone and
the parsed offered-subprotocol list. -/
theorem serveHTTP_eligible_trace_head (cfg : Config) (env : Env) (r : Request)
    (reg : Finset Nat)
    (hup : r.isWebSocketUpgrade = true)
    (hpath : pathAllowed cfg.backendPaths r.urlPath = true) :
    ∃ tl, (serveHTTP cfg env r reg).2.1
      = Effect.dialBackend ("ws://" ++ cfg.backendHost ++ r.urlString)
          (stripWSHeaders r.header.clone)
          (parseClientProtocols (r.header.get "Sec-WebSocket-Protocol")) :: tl := by
  rcases hd : env.dial ("ws://" ++ cfg.backendHost ++ r.urlString)
      (stripWSHeaders r.header.clone)
      (parseClientProtocols (r.header.get "Sec-WebSocket-Protocol")) with e | bc
  · exact ⟨[], by rw [serveHTTP_dial_failure_eq cfg env r reg e hup hpath hd]⟩
  · rcases hg : env.upgrade (advertisedProtocols bc.subprotocol) with e | cc
    · exact ⟨_, by
        rw [serveHTTP_upgrade_failure_eq cfg env r reg bc e hup hpath hd hg]⟩
    · by_cases hm : bc.subprotocol = cc.subprotocol
      · exact ⟨_, by
          rw [serveHTTP_success_eq cfg env r reg bc cc hup hpath hd hg hm]⟩
      · exact ⟨_, by
          rw [serveHTTP_mismatch_eq cfg env r reg bc cc hup hpath hd hg hm]⟩

theorem stripWSHeaders_eq_filter (h : Header) :
    stripWSHeaders h = h.filter (fun kv => !(wsStrippedNames.contains kv.1)) := by
  simp only [stripWSHeaders, Header.del, List.filter_filter]
  congr 1
  funext kv
  simp only [wsStrippedNames, List.contains_cons, List.contains_nil]
  cases h1 : kv.1 == "Sec-WebSocket-Version" <;>
    cases h2 : kv.1 == "Sec-WebSocket-Key" <;>
    cases h3 : kv.1 == "Sec-WebSocket-Extensions" <;>
    cases h4 : kv.1 == "Sec-WebSocket-Protocol" <;>
    cases h5 : kv.1 == "Connection" <;>
    cases h6 : kv.1 == "Upgrade" <;>
    simp [bne, h1, h2, h3, h4, h5, h6, BEq.comm]

/-- Claim C7: the headers forwarded on the backend dial are the clone of
the inbound headers with exactly the six upgrade-specific names removed:
those six names map to no values in the forwarded headers, every other
name keeps exactly its original values, cloning leaves the inbound
headers untouched, and on every eligible request the dial effect carries
precisely these stripped headers. -/
theorem forwarded_headers_spec (h : Header) (k : String) :
    (k ∈ wsStrippedNames → Header.getAll (stripWSHeaders h.clone) k = [])
  ∧ (k ∉ wsStrippedNames →
      Header.getAll (stripWSHeaders h.clone) k = Header.getAll h k)
  ∧ Header.clone h = h
  ∧ (∀ (cfg : Config) (env : Env) (r : Request) (reg : Finset Nat),
      r.isWebSocketUpgrade = true →
      pathAllowed cfg.backendPaths r.urlPath = true →
      ∃ tl, (serveHTTP cfg env r reg).2.1
        = Effect.dialBackend ("ws://" ++ cfg.backendHost ++ r.urlString)
            (stripWSHeaders r.header.clone)
            (parseClientProtocols (r.header.get "Sec-WebSocket-Protocol")) :: tl) := by
  refine ⟨?_, ?_, rfl, ?_⟩
  · intro hk
    have hc : wsStrippedNames.contains k = true := List.elem_iff.mpr hk
    have hcb : (!(wsStrippedNames.contains k)) = false := by rw [hc]; rfl
    rw [Header.clone, stripWSHeaders_eq_filter,
      getAll_filter_key h (fun s => !(wsStrippedNames.contains s)) k, hcb]
    simp
  · intro hk
    have hc : wsStrippedNames.contains k = false := by
      rcases hcc : wsStrippedNames.contains k with _ | _
      · rfl
      · exact absurd (List.elem_iff.mp hcc) hk
    have hcb : (!(wsStrippedNames.contains k)) = true := by rw [hc]; rfl
    rw [Header.clone, stripWSHeaders_eq_filter,
      getAll_filter_key h (fun s => !(wsStrippedNames.contains s)) k, hcb]
    simp
  · exact fun cfg env r reg hup hpath =>
      serveHTTP_eligible_trace_head cfg env r reg hup hpath

/-- Witness for C7 at a concrete header set: "X-Token" survives intact,
"Connection" is gone. -/
theorem forwarded_headers_spec_witness :
    Header.getAll (stripWSHeaders (Header.clone hdrEx)) "Connection" = []
    ∧ Header.getAll (stripWSHeaders (Header.clone hdrEx)) "X-Token"
        = Header.getAll hdrEx "X-Token" :=
  ⟨(forwarded_headers_spec hdrEx "Connection").1 (by decide),
   (forwarded_headers_spec hdrEx "X-Token").2.1 (by decide)⟩

/-! ## Offered subprotocols (C8) -/

theorem parseClientProtocols_foldl (l : List String) (acc : List String) :
    l.foldl (fun acc p => let q := trimSpace p; if q = "" then acc else acc ++ [q]) acc
      = acc ++ (l.map trimSpace).filter (fun p => p != "") := by
  induction l generalizing acc with
  | nil => simp
  | cons x xs ih =>
    by_cases hx : trimSpace x = ""
    · simp [List.foldl_cons, hx, ih, List.filter_cons]
    · simp [List.foldl_cons, hx, ih, List.filter_cons]

/-- Claim C8: the offered subprotocol list is exactly the comma-split,
whitespace-trimmed, empty-dropped entries of the
`Sec-WebSocket-Protocol` header value; an absent header (which `Get`
reads as "") yields the empty list; and on every eligible request the
backend dial carries exactly this list. -/
theorem offered_protocols_spec :
    (∀ raw, parseClientProtocols raw
      = ((splitOnComma raw).map trimSpace).filter (fun p => p != ""))
  ∧ parseClientProtocols "" = []
  ∧ (∀ (h : Header), (∀ kv ∈ h, kv.1 ≠ "Sec-WebSocket-Protocol") →
      Header.get h "Sec-WebSocket-Protocol" = "")
  ∧ (∀ (cfg : Config) (env : Env) (r : Request) (reg : Finset Nat),
      r.isWebSocketUpgrade = true →
      pathAllowed cfg.backendPaths r.urlPath = true →
      ∃ url hdr tl, (serveHTTP cfg env r reg).2.1
        = Effect.dialBackend url hdr
            (parseClientProtocols (r.header.get "Sec-WebSocket-Protocol")) :: tl) := by
  refine ⟨?_, rfl, ?_, ?_⟩
  · intro raw
    by_cases hr : raw = ""
    · subst hr
      decide
    · simp [parseClientProtocols, hr, parseClientProtocols_foldl]
  · intro h hk
    have : h.find? (fun kv => kv.1 == "Sec-WebSocket-Protocol") = none := by
      rw [List.find?_eq_none]
      intro kv hkv
      simpa [beq_iff_eq] using hk kv hkv
    simp [Header.get, this]
  · intro cfg env r reg hup hpath
    obtain ⟨tl, htl⟩ := serveHTTP_eligible_trace_head cfg env r reg hup hpath
    exact ⟨_, _, tl, htl⟩

/-- Witness for C8: a concrete raw header value with extra whitespace
and an empty entry. -/
theorem offered_protocols_spec_witness :
    parseClientProtocols "chat.v1, chat.v2 ,," =
      ((splitOnComma "chat.v1, chat.v2 ,,").map trimSpace).filter (fun p => p != "") :=
  offered_protocols_spec.1 "chat.v1, chat.v2 ,,"

/-! ## Provision (C6) -/

/-- Claim C6: `Provision` succeeds exactly when the (defaulted) interval
parses to a strictly positive duration, the backend host is non-empty
and the allow-list is non-empty; an unset interval behaves exactly as
"15s"; and the stored parsed interval is strictly positive on success. -/
theorem provision_validation (pd : String → Option Int) (cfg : ProvisionConfig) :
    ((∃ st, provision pd cfg = Except.ok st) ↔
      ((∃ d, pd (effectiveInterval cfg) = some d ∧ 0 < d)
        ∧ cfg.backendHost ≠ "" ∧ cfg.backendPaths ≠ []))
  ∧ (cfg.interval = "" →
      provision pd cfg = provision pd ⟨"15s", cfg.backendHost, cfg.backendPaths⟩)
  ∧ (∀ st, provision pd cfg = Except.ok st → 0 < st.intervalDuration) := by
  refine ⟨⟨?_, ?_⟩, ?_, ?_⟩
  · rintro ⟨st, hst⟩
    unfold provision at hst
    rcases hpd : pd (effectiveInterval cfg) with _ | d
    · simp only [hpd] at hst
      exact absurd hst (by simp)
    · simp only [hpd] at hst
      by_cases hd0 : d ≤ 0
      · rw [if_pos hd0] at hst
        exact absurd hst (by simp)
      · rw [if_neg hd0] at hst
        by_cases hh : cfg.backendHost = ""
        · rw [if_pos hh] at hst
          exact absurd hst (by simp)
        · rw [if_neg hh] at hst
          by_cases hp : cfg.backendPaths = []
          · rw [if_pos hp] at hst
            exact absurd hst (by simp)
          · exact ⟨⟨d, rfl, by omega⟩, hh, hp⟩
  · rintro ⟨⟨d, hpd, hd0⟩, hh, hp⟩
    refine ⟨{ interval := effectiveInterval cfg, intervalDuration := d,
              backendHost := cfg.backendHost, backendPaths := cfg.backendPaths,
              connections := ∅ }, ?_⟩
    simp only [provision, hpd]
    rw [if_neg (by omega : ¬ d ≤ 0), if_neg hh, if_neg hp]
  · intro h0
    simp [provision, effectiveInterval, h0]
  · intro st hst
    unfold provision at hst
    rcases hpd : pd (effectiveInterval cfg) with _ | d
    · simp only [hpd] at hst
      exact absurd hst (by simp)
    · simp only [hpd] at hst
      by_cases hd0 : d ≤ 0
      · rw [if_pos hd0] at hst
        exact absurd hst (by simp)
      · rw [if_neg hd0] at hst
        by_cases hh : cfg.backendHost = ""
        · rw [if_pos hh] at hst
          exact absurd hst (by simp)
        · rw [if_neg hh] at hst
          by_cases hp : cfg.backendPaths = []
          · rw [if_pos hp] at hst
            exact absurd hst (by simp)
          · rw [if_neg hp] at hst
            have hok : st = { interval := effectiveInterval cfg,
                              intervalDuration := d,
                              backendHost := cfg.backendHost,
                              backendPaths := cfg.backendPaths,
                              connections := ∅ } := by
              simpa using hst.symm
            subst hok
            simp only []
            omega

/-- A concrete stand-in for `time.ParseDuration` accepting only "15s". -/
def pd15 (s : String) : Option Int :=
  if s = "15s" then some 15000000000 else none

/-- Witness for C6: an unset interval defaults to "15s" and provisions
with a strictly positive stored duration. -/
theorem provision_validation_witness :
    0 < (Provisioned.mk "15s" 15000000000 "backend.example.com" ["/ws"] ∅).intervalDuration :=
  (provision_validation pd15 ⟨"", "backend.example.com", ["/ws"]⟩).2.2 _ rfl

/-! ## Relay fidelity (C1) -/

/-- While reads deliver messages and writes succeed, the relay forwards
each message unchanged and in order, then continues on the rest of the
stream. -/
theorem proxyWebSocket_ok_prefix (wr : Nat → Option String) (msgs : List WSMessage)
    (rest : List ReadResult) (j : Nat)
    (hok : ∀ i, i < msgs.length → wr (j + i) = none) :
    proxyWebSocket wr j (msgs.map ReadResult.message ++ rest)
      = ((msgs ++ (proxyWebSocket wr (j + msgs.length) rest).1),
         (proxyWebSocket wr (j + msgs.length) rest).2) := by
  induction msgs generalizing j with
  | nil => simp
  | cons m ms ih =>
    have h0 : wr j = none := by simpa using hok 0 (by simp)
    have hok' : ∀ i, i < ms.length → wr (j + 1 + i) = none := by
      intro i hi
      have := hok (i + 1) (by simpa using Nat.succ_lt_succ hi)
      simpa [Nat.add_comm, Nat.add_assoc, Nat.add_left_comm] using this
    have harith : j + 1 + ms.length = j + (ms.length + 1) := by omega
    simp only [List.map_cons, List.cons_append, proxyWebSocket, h0, List.append_eq]
    rw [ih (j + 1) hok', harith]
    simp

/-- Claim C1: every message successfully read by a relay direction is
written with identical type and payload to the destination, in exactly
the source order with nothing dropped, duplicated or reordered; the loop
stops reporting the first read error, and a failing write stops the loop
at that message with only the preceding messages delivered. -/
theorem proxyWebSocket_fidelity (wr : Nat → Option String)
    (msgs : List WSMessage) (e : String) :
    ((∀ i, i < msgs.length → wr i = none) →
      proxyWebSocket wr 0 (msgs.map ReadResult.message ++ [ReadResult.failure e])
        = (msgs, some (RelayEnd.readFailed e)))
  ∧ (∀ k werr, wr k = some werr → (∀ i, i < k → wr i = none) →
      k < msgs.length →
      proxyWebSocket wr 0 (msgs.map ReadResult.message ++ [ReadResult.failure e])
        = (msgs.take k, some (RelayEnd.writeFailed werr))) := by
  constructor
  · intro hok
    have h := proxyWebSocket_ok_prefix wr msgs [ReadResult.failure e] 0
      (by simpa using hok)
    simpa [proxyWebSocket] using h
  · intro k werr hk hok hlt
    have hm : msgs = msgs.take k ++ msgs[k] :: msgs.drop (k + 1) := by
      conv_lhs => rw [← List.take_append_drop k msgs]
      rw [List.drop_eq_getElem_cons hlt]
    have hsplit : msgs.map ReadResult.message ++ [ReadResult.failure e]
        = (msgs.take k).map ReadResult.message ++
          (ReadResult.message msgs[k] ::
            ((msgs.drop (k + 1)).map ReadResult.message ++ [ReadResult.failure e])) := by
      conv_lhs => rw [hm]
      rw [List.map_append, List.map_cons, List.append_assoc, List.cons_append]
    have hlen : (msgs.take k).length = k := List.length_take_of_le (le_of_lt hlt)
    have h := proxyWebSocket_ok_prefix wr (msgs.take k)
      (ReadResult.message msgs[k] ::
        ((msgs.drop (k + 1)).map ReadResult.message ++ [ReadResult.failure e])) 0
      (by
        intro i hi
        rw [hlen] at hi
        simpa using hok i hi)
    rw [hsplit, h]
    simp only [hlen, Nat.zero_add]
    simp [proxyWebSocket, hk]

/-- Witness for C1: two concrete messages relayed verbatim, the loop
ending with the read error. -/
theorem proxyWebSocket_fidelity_witness :
    proxyWebSocket (fun _ => none) 0
      ([⟨1, [104, 105]⟩, ⟨2, [0, 255]⟩].map ReadResult.message
        ++ [ReadResult.failure "EOF"])
      = ([⟨1, [104, 105]⟩, ⟨2, [0, 255]⟩], some (RelayEnd.readFailed "EOF")) :=
  (proxyWebSocket_fidelity (fun _ => none) [⟨1, [104, 105]⟩, ⟨2, [0, 255]⟩] "EOF").1
    (fun _ _ => rfl)

/-! ## Heartbeat (C9) -/

/-- Claim C9: the heartbeat loop's only effects are ping-send attempts,
each with the 5-second deadline; it never closes the connection itself;
it terminates exactly when some observed tick's send fails (so with
all sends succeeding it runs one attempt per tick indefinitely,
regardless of pongs, which are not even an input of the loop); and the
installed pong handler does nothing and returns no error. -/
theorem handlePing_spec (send : Nat → Option String) (fuel i : Nat) :
    (∀ eff ∈ (handlePingRun send fuel i).1, eff = PingEffect.sendPing 5)
  ∧ PingEffect.closeConn ∉ (handlePingRun send fuel i).1
  ∧ ((handlePingRun send fuel i).2 = true ↔
      ∃ k, k < fuel ∧ (send (i + k)).isSome)
  ∧ ((handlePingRun send fuel i).2 = false →
      (handlePingRun send fuel i).1.length = fuel)
  ∧ (∀ s, pongHandler s = none) := by
  induction fuel generalizing i with
  | zero => simp [handlePingRun, pongHandler]
  | succ n ih =>
    rcases hs : send i with _ | err
    · obtain ⟨ih1, ih2, ih3, ih4, _⟩ := ih (i + 1)
      refine ⟨?_, ?_, ?_, ?_, fun _ => rfl⟩
      · intro eff heff
        simp only [handlePingRun, hs, List.mem_cons] at heff
        rcases heff with heff | heff
        · exact heff
        · exact ih1 eff heff
      · simp only [handlePingRun, hs, List.mem_cons]
        rintro (h | h)
        · exact absurd h (by simp)
        · exact ih2 h
      · simp only [handlePingRun, hs]
        rw [ih3]
        constructor
        · rintro ⟨k, hk, hsome⟩
          exact ⟨k + 1, by omega, by
            have : i + 1 + k = i + (k + 1) := by omega
            rw [← this]; exact hsome⟩
        · rintro ⟨k, hk, hsome⟩
          rcases k with _ | k
          · simp [hs] at hsome
          · exact ⟨k, by omega, by
              have : i + 1 + k = i + (k + 1) := by omega
              rw [this]; exact hsome⟩
      · intro hstop
        simp only [handlePingRun, hs] at hstop ⊢
        simp [ih4 hstop]
    · refine ⟨?_, ?_, ?_, ?_, fun _ => rfl⟩
      · intro eff heff
        simp only [handlePingRun, hs, List.mem_singleton] at heff
        exact heff
      · simp [handlePingRun, hs]
      · simp only [handlePingRun, hs]
        constructor
        · intro _
          exact ⟨0, by omega, by simp [hs]⟩
        · intro _
          trivial
      · intro hstop
        simp only [handlePingRun, hs] at hstop
        exact absurd hstop (by simp)

/-- Witness for C9: three successful ticks leave the loop running with
three send attempts and no close. -/
theorem handlePing_spec_witness :
    PingEffect.closeConn ∉ (handlePingRun (fun _ => none) 3 0).1
    ∧ (handlePingRun (fun _ => none) 3 0).1.length = 3 := by
  obtain ⟨_, h2, _, h4, _⟩ := handlePing_spec (fun _ => none) 3 0
  exact ⟨h2, h4 (by decide)⟩

/-! ## Subprotocol consistency (C2) -/

/-- Claim C2: after a successful dial, when the backend selected a
non-empty subprotocol P the client-facing upgrade advertises exactly
[P] (and the trace records that advertisement); and whenever the
client-side upgrade resolves a different subprotocol (including ""),
`ServeHTTP` returns the mismatch error with both connections closed in
the trace before the return, no registration, no relay spawn, and the
registry unchanged. -/
theorem serveHTTP_subprotocol_enforcement (cfg : Config) (env : Env)
    (r : Request) (reg : Finset Nat) (bc : Conn)
    (hup : r.isWebSocketUpgrade = true)
    (hpath : pathAllowed cfg.backendPaths r.urlPath = true)
    (hd : env.dial ("ws://" ++ cfg.backendHost ++ r.urlString)
        (stripWSHeaders r.header.clone)
        (parseClientProtocols (r.header.get "Sec-WebSocket-Protocol"))
        = Except.ok bc) :
    (bc.subprotocol ≠ "" →
      advertisedProtocols bc.subprotocol = [bc.subprotocol]
      ∧ ∃ tl, (serveHTTP cfg env r reg).2.1
          = Effect.dialBackend ("ws://" ++ cfg.backendHost ++ r.urlString)
              (stripWSHeaders r.header.clone)
              (parseClientProtocols (r.header.get "Sec-WebSocket-Protocol"))
            :: Effect.upgradeClient [bc.subprotocol] :: tl)
  ∧ (∀ cc : Conn,
      env.upgrade (advertisedProtocols bc.subprotocol) = Except.ok cc →
      bc.subprotocol ≠ cc.subprotocol →
      serveHTTP cfg env r reg
        = (some (GoErr.mismatch bc.subprotocol cc.subprotocol),
           [Effect.dialBackend ("ws://" ++ cfg.backendHost ++ r.urlString)
              (stripWSHeaders r.header.clone)
              (parseClientProtocols (r.header.get "Sec-WebSocket-Protocol")),
            Effect.upgradeClient (advertisedProtocols bc.subprotocol),
            Effect.closeClient cc.id, Effect.closeBackend bc.id],
           reg)) := by
  constructor
  · intro hne
    have hadv : advertisedProtocols bc.subprotocol = [bc.subprotocol] := by
      simp [advertisedProtocols, hne]
    refine ⟨hadv, ?_⟩
    rcases hg : env.upgrade (advertisedProtocols bc.subprotocol) with e | cc
    · exact ⟨_, by
        rw [serveHTTP_upgrade_failure_eq cfg env r reg bc e hup hpath hd hg, hadv]⟩
    · by_cases hm : bc.subprotocol = cc.subprotocol
      · exact ⟨_, by
          rw [serveHTTP_success_eq cfg env r reg bc cc hup hpath hd hg hm, hadv]⟩
      · exact ⟨_, by
          rw [serveHTTP_mismatch_eq cfg env r reg bc cc hup hpath hd hg hm, hadv]⟩
  · intro cc hg hm
    exact serveHTTP_mismatch_eq cfg env r reg bc cc hup hpath hd hg hm

/-- Witness for C2: backend selects "chat.v2", client side resolves "":
the mismatch error is returned, both connections are closed, registry
stays empty. -/
theorem serveHTTP_subprotocol_enforcement_witness :
    serveHTTP cfgEx envMismatch reqEx ∅
      = (some (GoErr.mismatch "chat.v2" ""),
         [Effect.dialBackend "ws://backend.example.com/ws"
            [("X-Token", ["abc"])] ["chat.v1", "chat.v2"],
          Effect.upgradeClient ["chat.v2"],
          Effect.closeClient 1, Effect.closeBackend 2],
         ∅) :=
  ((serveHTTP_subprotocol_enforcement cfgEx envMismatch reqEx ∅ ⟨2, "chat.v2"⟩
      rfl (by decide) rfl).2 ⟨1, ""⟩ rfl (by decide)).trans (by decide)

/-! ## Registry window (C5) -/

def registerIds (tr : List Effect) : List Nat :=
  tr.filterMap (fun e => match e with | Effect.register c => some c | _ => none)

def unregisterIds (tr : List Effect) : List Nat :=
  tr.filterMap (fun e => match e with | Effect.unregister c => some c | _ => none)

theorem serveHTTP_passthrough_eq (cfg : Config) (env : Env) (r : Request)
    (reg : Finset Nat)
    (h : r.isWebSocketUpgrade = false ∨ pathAllowed cfg.backendPaths r.urlPath = false) :
    serveHTTP cfg env r reg = (env.nextResult, [Effect.passThrough], reg) := by
  rcases h with h | h
  · simp [serveHTTP, h]
  · cases hu : r.isWebSocketUpgrade <;> simp [serveHTTP, h, hu]

/-- Claim C5: registrations and removals in one `ServeHTTP` invocation
are exactly paired (same connection, removal after insertion, each
mutation bracketed by the one mutex), at most one connection is ever
registered, a fresh connection is never registered twice (it is absent
from the initial registry by hypothesis and inserted exactly once), and
after the entry point returns the registry equals the initial one — in
particular the session's connection is no longer registered. -/
theorem serveHTTP_registry_window (cfg : Config) (env : Env) (r : Request)
    (reg : Finset Nat)
    (hfresh : ∀ cid, cid ∈ registerIds (serveHTTP cfg env r reg).2.1 → cid ∉ reg) :
    registerIds (serveHTTP cfg env r reg).2.1
      = unregisterIds (serveHTTP cfg env r reg).2.1
  ∧ (registerIds (serveHTTP cfg env r reg).2.1).length ≤ 1
  ∧ (serveHTTP cfg env r reg).2.2 = reg
  ∧ (∀ cid, cid ∈ registerIds (serveHTTP cfg env r reg).2.1 →
      cid ∉ (serveHTTP cfg env r reg).2.2
      ∧ ∃ l₁ l₂ l₃, (serveHTTP cfg env r reg).2.1
          = l₁ ++ Effect.lockMu :: Effect.register cid :: Effect.unlockMu ::
              (l₂ ++ Effect.lockMu :: Effect.unregister cid :: Effect.unlockMu :: l₃)) := by
  by_cases hup : r.isWebSocketUpgrade = true
  · by_cases hpath : pathAllowed cfg.backendPaths r.urlPath = true
    · rcases hd : env.dial ("ws://" ++ cfg.backendHost ++ r.urlString)
          (stripWSHeaders r.header.clone)
          (parseClientProtocols (r.header.get "Sec-WebSocket-Protocol")) with e | bc
      · have heq := serveHTTP_dial_failure_eq cfg env r reg e hup hpath hd
        rw [heq]
        simp [registerIds, unregisterIds]
      · rcases hg : env.upgrade (advertisedProtocols bc.subprotocol) with e | cc
        · have heq := serveHTTP_upgrade_failure_eq cfg env r reg bc e hup hpath hd hg
          rw [heq]
          simp [registerIds, unregisterIds]
        · by_cases hm : bc.subprotocol = cc.subprotocol
          · have heq := serveHTTP_success_eq cfg env r reg bc cc hup hpath hd hg hm
            rw [heq] at hfresh ⊢
            have hcc : cc.id ∉ reg := hfresh cc.id (by simp [registerIds])
            refine ⟨by simp [registerIds, unregisterIds], by simp [registerIds],
              by simpa using Finset.erase_insert hcc, ?_⟩
            intro cid hcid
            have hcid' : cid = cc.id := by
              simpa [registerIds] using hcid
            subst hcid'
            refine ⟨by rw [Finset.erase_insert hcc]; exact hcc, ?_⟩
            exact ⟨[Effect.dialBackend ("ws://" ++ cfg.backendHost ++ r.urlString)
                      (stripWSHeaders r.header.clone)
                      (parseClientProtocols (r.header.get "Sec-WebSocket-Protocol")),
                    Effect.upgradeClient (advertisedProtocols bc.subprotocol)],
                   [Effect.spawnPing cc.id, Effect.spawnRelay cc.id bc.id,
                    Effect.spawnRelay bc.id cc.id, Effect.closeClient cc.id,
                    Effect.closeBackend bc.id],
                   [], by simp⟩
          · have heq := serveHTTP_mismatch_eq cfg env r reg bc cc hup hpath hd hg hm
            rw [heq]
            simp [registerIds, unregisterIds]
    · have heq := serveHTTP_passthrough_eq cfg env r reg
        (Or.inr (by simpa using hpath))
      rw [heq]
      simp [registerIds, unregisterIds]
  · have heq := serveHTTP_passthrough_eq cfg env r reg
      (Or.inl (by simpa using hup))
    rw [heq]
    simp [registerIds, unregisterIds]

/-- Witness for C5: a successful concrete session over the empty
registry — insertions and removals pair up and the registry is empty
again after return. -/
theorem serveHTTP_registry_window_witness :
    registerIds (serveHTTP cfgEx envOk reqEx ∅).2.1
      = unregisterIds (serveHTTP cfgEx envOk reqEx ∅).2.1
    ∧ (serveHTTP cfgEx envOk reqEx ∅).2.2 = ∅ := by
  have h := serveHTTP_registry_window cfgEx envOk reqEx ∅
    (fun cid _ => Finset.not_mem_empty cid)
  exact ⟨h.1, h.2.2.1⟩

end WSHeartbeat
